import Mathlib

/-!
# knaka/pug: the public wrapper `pug.go`

`pug.go` is the public surface of the template compiler: it turns an `Options`
value into a compiler context, asks the context for the Go template source of
a file or of a string, and hands that source to `html/template`.

What `pug.go` uses of the packages `compiler` and `runtime` and of the Go
library `html/template` is collected in the structures `Compiler` and
`Engine`, and every function of `pug.go` is translated over an arbitrary
`Compiler` and `Engine`.
-/

namespace Pug

/-! ## Imported packages -/

/-- Go `error` values, identified by their message. -/
abbrev Error := String

/-- Go `template.FuncMap` (`map[string]interface{}`): a finite map from
function names to function values; the nil map and the empty map both bind
nothing. -/
abbrev FuncMap (Fn : Type) := String → Option Fn

/-- Modelled from the spec: `compiler.Context` as built by `compiler.NewContext`
(the code of package `compiler` is missing); the context
is recorded as the three arguments `NewContext` is called with: the path
resolver, the indentation string and the excluded import paths. -/
structure Context (D : Type) where
  dir : D
  indentString : String
  excludedImports : List String

/-- Modelled from the spec: `compiler.NewContext(dir, indentString,
excludedImports)` (missing from the sources), the constructor of `Context`. -/
def NewContext {D : Type} (dir : D) (indentString : String)
    (excludedImports : List String) : Context D :=
  { dir := dir, indentString := indentString, excludedImports := excludedImports }

/-- What `pug.go` uses of package `compiler`: the interface type `Dir`, the two
resolvers `FsDir(root)` and `StringInputDir(input)`, and the method
`Context.CompileFile(filename)`, which returns the Go template source or an
error. -/
structure Compiler where
  Dir : Type
  FsDir : String → Dir
  StringInputDir : String → Dir
  CompileFile : Context Dir → String → Except Error String

/-- What `pug.go` uses of `html/template` and of package `runtime`: function
values `Fn`, parse trees `Tree`, the built-in map `runtime.FuncMap`, and the
template parser, which sees the function names in scope, the template name and
the template text. -/
structure Engine where
  Fn : Type
  Tree : Type
  runtimeFuncMap : FuncMap Fn
  parseText : FuncMap Fn → String → String → Except Error Tree

/-- Go `*template.Template`: its name, its function map and, once parsed, its
parse tree. -/
structure Template (Fn Tree : Type) where
  name : String
  funcs : FuncMap Fn
  tree : Option Tree

/-- Go `template.New(name)`: a fresh template without functions or body. -/
def Template.New {Fn Tree : Type} (name : String) : Template Fn Tree :=
  { name := name, funcs := fun _ => none, tree := none }

/-- Go `(*Template).Funcs(funcMap)`: adds the elements of `funcMap` to the
function map of the template, overwriting entries of the same name. -/
def Template.Funcs {Fn Tree : Type} (t : Template Fn Tree) (funcMap : FuncMap Fn) :
    Template Fn Tree :=
  { t with funcs := fun k =>
      match funcMap k with
      | some f => some f
      | none => t.funcs k }

/-- Go `(*Template).Parse(text)`: parses `text` as the body of the template;
returns the template itself on success and `nil` with the error otherwise. -/
def Template.Parse (e : Engine) (t : Template e.Fn e.Tree) (text : String) :
    Except Error (Template e.Fn e.Tree) :=
  match e.parseText t.funcs t.name text with
  | .error err => .error err
  | .ok tr => .ok { t with tree := some tr }

/-! ## pug.go -/

/-- The `Options` struct of `pug.go`; the defaults are the Go zero values
(`Dir` is an interface, `nil` is `none`; a nil slice is the empty list; a nil
map binds nothing). -/
structure Options (D Fn : Type) where
  PrettyPrint : Bool := false
  Dir : Option D := none
  ExcludedImports : List String := []
  Funcs : FuncMap Fn := fun _ => none

/-- The function `getOptions` of `pug.go`: the zero `Options`, replaced by the
first element when the slice is not empty. -/
def getOptions {D Fn : Type} (o : List (Options D Fn)) : Options D Fn :=
  let opt : Options D Fn := {}
  if h : 0 < o.length then o.get ⟨0, h⟩ else opt

/-- The function `newContext` of `pug.go`. -/
def newContext {D Fn : Type} (dir : D) (options : List (Options D Fn)) : Context D :=
  let opt := getOptions options
  let indentString := if opt.PrettyPrint then "  " else ""
  let dir := match opt.Dir with
    | some d => d
    | none => dir
  NewContext dir indentString opt.ExcludedImports

/-- The function `compileTemplate` of `pug.go`:
`template.New(name).Funcs(options.Funcs).Funcs(runtime.FuncMap).Parse(tplstring)`. -/
def compileTemplate (c : Compiler) (e : Engine) (options : Options c.Dir e.Fn)
    (name : String) (tplstring : String) : Except Error (Template e.Fn e.Tree) :=
  Template.Parse e (((Template.New name).Funcs options.Funcs).Funcs e.runtimeFuncMap) tplstring

/-- The function `CompileFile` of `pug.go`. -/
def CompileFile (c : Compiler) (e : Engine) (filename : String)
    (options : List (Options c.Dir e.Fn)) : Except Error (Template e.Fn e.Tree) :=
  let ctx := newContext (c.FsDir ".") options
  match c.CompileFile ctx filename with
  | .error err => .error err
  | .ok tplstring => compileTemplate c e (getOptions options) filename tplstring

/-- The function `CompileString` of `pug.go`. -/
def CompileString (c : Compiler) (e : Engine) (input : String)
    (options : List (Options c.Dir e.Fn)) : Except Error (Template e.Fn e.Tree) :=
  let ctx := newContext (c.StringInputDir input) options
  match c.CompileFile ctx "" with
  | .error err => .error err
  | .ok tplstring => compileTemplate c e (getOptions options) "" tplstring

/-- The function `ParseFile` of `pug.go`. -/
def ParseFile (c : Compiler) (e : Engine) (filename : String)
    (options : List (Options c.Dir e.Fn)) : Except Error String :=
  c.CompileFile (newContext (c.FsDir ".") options) filename

/-- The function `ParseString` of `pug.go`. -/
def ParseString (c : Compiler) (e : Engine) (input : String)
    (options : List (Options c.Dir e.Fn)) : Except Error String :=
  c.CompileFile (newContext (c.StringInputDir input) options) ""

/-! ## The text-line fragment of the compiler and of the template engine

Packages `compiler` and `runtime` are not part of the sources at hand. The
definitions below model, from the specification, the part of them that a
template made of one piped text line exercises: the interpolation markers of a
text line, the emitted template source and the raw built-in. The parser of the
emitted source and the execution of the parsed program follow the Go library
`html/template`, for templates whose actions stand in a text node; its escaper
is the one of `html.go`.
-/

/-- Modelled from the spec: the segments of a Text node (package `compiler` is
missing): literal text, or an interpolated expression that is escaped (written
with `#`) or raw (written with `!`). -/
inductive Segment where
  | literal (text : String)
  | interpolated (escaped : Bool) (expr : String)
  deriving Repr, DecidableEq

/-- Modelled from the spec: the literal segment holding the characters read so
far (kept in reverse order), none when nothing was read; part of the missing
text-line parser of package `compiler`. -/
def flushLiteral (buf : List Char) : List Segment :=
  match buf with
  | [] => []
  | _ :: _ => [Segment.literal (String.mk buf.reverse)]

/-- Modelled from the spec: the missing text-line parser of package `compiler`,
section 4.3: a marker `#` followed by an expression in braces is an escaped
interpolation, `!` followed by an expression in braces a raw one, everything
else is literal text; a marker that is not closed is a ParseError. The first
argument is `none` outside a marker and `some escaped` inside one. -/
def scanText : Option Bool → List Char → List Char → Except Error (List Segment)
  | none, buf, [] => .ok (flushLiteral buf)
  | some _, _, [] => .error "ParseError: unclosed interpolation"
  | none, buf, [c] => .ok (flushLiteral (c :: buf))
  | none, buf, c :: d :: ds =>
    if (c = '#' ∨ c = '!') ∧ d = '\x7b' then
      match scanText (some (decide (c = '#'))) [] ds with
      | .error err => .error err
      | .ok segs => .ok (flushLiteral buf ++ segs)
    else scanText none (c :: buf) (d :: ds)
  | some esc, buf, c :: cs =>
    if c = '\x7d' then
      match scanText none [] cs with
      | .error err => .error err
      | .ok segs => .ok (Segment.interpolated esc (String.mk buf.reverse) :: segs)
    else scanText (some esc) (c :: buf) cs

/-- Modelled from the spec: an identifier of the expression grammar (the
missing expression parser of package `compiler`, section 4.2, restricted to
its primary `identifier`): letters, digits and underscores, not empty. -/
def isIdentifier (expr : String) : Bool :=
  !expr.data.isEmpty && expr.data.all (fun c => c.isAlphanum || c = '_')

/-- Modelled from the spec: the name of the built-in of `runtime.FuncMap`
(package `runtime` is missing) that marks a value as raw, so that it is
emitted without escaping. -/
def unescapeName : String := "__pug_unescape"

/-- Modelled from the spec: the missing code generator of package `compiler`,
section 4.5, for one segment: literal text is emitted as it is, an escaped
interpolation as an action that reads the data field, a raw interpolation as
the same action passed through the raw built-in. Expressions other than
identifiers are outside the fragment. -/
def emitSegment : Segment → Except Error String
  | .literal text => .ok text
  | .interpolated escaped expr =>
    if isIdentifier expr then
      if escaped then .ok ("\x7b\x7b." ++ expr ++ "\x7d\x7d")
      else .ok ("\x7b\x7b" ++ unescapeName ++ " ." ++ expr ++ "\x7d\x7d")
    else .error "ParseError: unsupported expression"

/-- Modelled from the spec: the emitted source of a list of segments, in
document order (missing code generator of package `compiler`). -/
def emitSegments : List Segment → Except Error String
  | [] => .ok ""
  | seg :: segs =>
    match emitSegment seg with
    | .error err => .error err
    | .ok s =>
      match emitSegments segs with
      | .error err => .error err
      | .ok rest => .ok (s ++ rest)

/-- Modelled from the spec: the missing pipeline of package `compiler` on the
text of one template unit, for the fragment of the language made of the empty
template and of one piped text line; every other construct is outside the
fragment and is reported as an error. -/
def compileSource (src : String) : Except Error String :=
  match src.data with
  | [] => .ok ""
  | c :: cs =>
    match cs with
    | [] => .error "ParseError: unsupported construct"
    | d :: text =>
      if c = '|' ∧ d = ' ' ∧ !text.contains '\n' then
        match scanText none [] text with
        | .error err => .error err
        | .ok segs => emitSegments segs
      else .error "ParseError: unsupported construct"

/-- Modelled from the spec: a path resolver, the implementations of the missing
interface `compiler.Dir`: given a logical path, the source text or an error. -/
structure Resolver where
  read : String → Except Error String

/-- Modelled from the spec: the missing package `compiler` over a native file
system `fsys` (directory and path to content): `FsDir(root)` reads below
`root`, `StringInputDir(input)` resolves the empty path to `input`, and
`CompileFile` reads the unit through the resolver of the context and compiles
its text. -/
def specCompiler (fsys : String → String → Option String) : Compiler :=
  { Dir := Resolver
    FsDir := fun root =>
      { read := fun path =>
          match fsys root path with
          | some text => .ok text
          | none => .error ("ResolutionError: not found: " ++ path) }
    StringInputDir := fun input =>
      { read := fun path =>
          if path = "" then .ok input
          else .error ("ResolutionError: not found: " ++ path) }
    CompileFile := fun ctx filename =>
      match ctx.dir.read filename with
      | .error err => .error err
      | .ok src => compileSource src }

/-- A native file system without files. -/
def noFiles : String → String → Option String := fun _ _ => none

/-- Modelled from the spec: a value at render time (the missing runtime
evaluator): its text and whether it is raw, that is, emitted unescaped (in Go,
a value of type `template.HTML`). -/
structure Rendered where
  text : String
  raw : Bool

/-- Modelled from the spec: an operation of the render program (the parse tree
of the missing template engine): literal-emit, or the emit of a data field,
possibly passed through a named function. -/
inductive Action where
  | text (s : String)
  | field (fn : Option String) (name : String)
  deriving Repr, DecidableEq

/-- Go `html/template` (standard library, `html.go`), `htmlReplacementTable`:
the runes that are replaced in a text node, with their replacements: NUL by
U+FFFD, the double quote, `&`, the single quote, `+`, `<` and `>` by entities;
every other rune has no entry. -/
def htmlReplacementTable (r : Char) : Option String :=
  if r = '\x00' then some "\uFFFD"
  else if r = '\x22' then some "&#34;"
  else if r = '&' then some "&amp;"
  else if r = '\x27' then some "&#39;"
  else if r = '+' then some "&#43;"
  else if r = '<' then some "&lt;"
  else if r = '>' then some "&gt;"
  else none

/-- Go `html/template` (`html.go`), one step of `htmlReplacer`: a rune with an
entry in the table is written as its replacement, every other rune as
itself. -/
def replaceRune (r : Char) : List Char :=
  match htmlReplacementTable r with
  | some repl => repl.data
  | none => [r]

/-- Go `html/template` (`html.go`), `htmlReplacer(s, htmlReplacementTable,
true)`: the runes of `s` in order, each through the replacement table. -/
def htmlReplacer (s : String) : String :=
  String.mk (s.data.flatMap replaceRune)

/-- Go `html/template` (`html.go`), `htmlEscaper`, the escaper of an action in
a text node: a value of type `template.HTML` (a raw value) is written as it
is, every other value through `htmlReplacer`. -/
def htmlEscaper (v : Rendered) : String :=
  if v.raw then v.text else htmlReplacer v.text

/-- The escaping of one character as the claim words it: the metacharacters
`<`, `>`, `&`, double and single quote are replaced by entities, every other
character is kept. -/
def claimedEscapeChar (c : Char) : List Char :=
  if c = '<' then "&lt;".data
  else if c = '>' then "&gt;".data
  else if c = '&' then "&amp;".data
  else if c = '\x22' then "&#34;".data
  else if c = '\x27' then "&#39;".data
  else [c]

/-- The escaped form of a text as the claim words it, to be compared with
`htmlReplacer`, the escaped form the template engine writes. -/
def claimedEscape (s : String) : String :=
  String.mk (s.data.flatMap claimedEscapeChar)

/-- Modelled from the spec: the words of an action body, separated by blanks
(missing template parser). The second argument holds the word being read, in
reverse order. -/
def splitWords : List Char → List Char → List String
  | [], [] => []
  | [], w :: ws => [String.mk (w :: ws).reverse]
  | c :: cs, word =>
    if c = ' ' then
      match word with
      | [] => splitWords cs []
      | _ :: _ => String.mk word.reverse :: splitWords cs []
    else splitWords cs (c :: word)

/-- Modelled from the spec: the action written between double braces (missing
template parser): a data field `.Name`, or a function name followed by a data
field; the function has to be in the function map of the template. -/
def parseAction {Fn : Type} (funcs : FuncMap Fn) (body : List Char) : Except Error Action :=
  match splitWords body [] with
  | [w] =>
    match w.data with
    | '.' :: name => .ok (Action.field none (String.mk name))
    | _ => .error "template: unexpected action"
  | [f, w] =>
    match w.data with
    | '.' :: name =>
      match funcs f with
      | some _ => .ok (Action.field (some f) (String.mk name))
      | none => .error ("template: function not defined: " ++ f)
    | _ => .error "template: unexpected action"
  | _ => .error "template: unexpected action"

/-- Modelled from the spec: the text action holding the characters read so far
(in reverse order), none when nothing was read (missing template parser). -/
def flushText (buf : List Char) : List Action :=
  match buf with
  | [] => []
  | _ :: _ => [Action.text (String.mk buf.reverse)]

/-- Modelled from the spec: the missing template parser, reading the emitted
source back into the render program: text outside double braces is
literal-emit, the body of double braces is an action. The first argument tells
whether the reader is inside an action. -/
def scanTemplate {Fn : Type} (funcs : FuncMap Fn) :
    Bool → List Char → List Char → Except Error (List Action)
  | false, buf, [] => .ok (flushText buf)
  | true, _, [] => .error "template: unclosed action"
  | false, buf, [c] => .ok (flushText (c :: buf))
  | true, _, [_] => .error "template: unclosed action"
  | false, buf, c :: d :: ds =>
    if c = '\x7b' ∧ d = '\x7b' then
      match scanTemplate funcs true [] ds with
      | .error err => .error err
      | .ok acts => .ok (flushText buf ++ acts)
    else scanTemplate funcs false (c :: buf) (d :: ds)
  | true, buf, c :: d :: ds =>
    if c = '\x7d' ∧ d = '\x7d' then
      match parseAction funcs buf.reverse with
      | .error err => .error err
      | .ok act =>
        match scanTemplate funcs false [] ds with
        | .error err => .error err
        | .ok acts => .ok (act :: acts)
    else scanTemplate funcs true (c :: buf) (d :: ds)

/-- Modelled from the spec: the missing template engine and package `runtime`:
function values map a render value to a render value, the built-in map binds
the raw marker, and the parser reads the emitted source. -/
def specEngine : Engine :=
  { Fn := Rendered → Rendered
    Tree := List Action
    runtimeFuncMap := fun k =>
      if k = unescapeName then some (fun v => { v with raw := true }) else none
    parseText := fun funcs _ text => scanTemplate funcs false [] text.data }

/-- Options of a caller whose functions bind the name of the raw built-in (to
the identity) and the name `shout` (to a function that marks nothing raw and
appends an exclamation mark). -/
def shadowingOptions : Options (specCompiler noFiles).Dir specEngine.Fn :=
  { Funcs := fun k =>
      if k = unescapeName then some (fun v => v)
      else if k = "shout" then some (fun v => { v with text := v.text ++ "!" })
      else none }

/-- A Go struct value with string fields, the data of a render (as the
`testStruct` of the tests): the field names with their values. -/
structure StructValue where
  fields : List (String × String)

/-- Go `html/template`, the escaping context of an operation: the engine
escapes an action by the context the literal text before it leaves; literal
text without `<` opens no tag and no comment and leaves the context a text
node. -/
def staysInText : Action → Bool
  | .text s => !s.data.contains '<'
  | .field _ _ => true

/-- Go `html/template`, the text one operation writes in a text node against
the struct `data`: literal text as it is; an action evaluates the field of the
struct (a field the struct lacks is an error of the execution), passes the
value through the named function when there is one, and writes the result
through `htmlEscaper`. -/
def executeAction (funcs : FuncMap (Rendered → Rendered)) (data : StructValue) :
    Action → Except Error String
  | .text s => .ok s
  | .field fn name =>
    match data.fields.lookup name with
    | none => .error ("template: can not evaluate field " ++ name)
    | some v =>
      let value : Rendered := { text := v, raw := false }
      match fn with
      | none => .ok (htmlEscaper value)
      | some f =>
        match funcs f with
        | none => .error ("template: function not defined: " ++ f)
        | some g => .ok (htmlEscaper (g value))

/-- Go `html/template`, the execution of a sequence of operations, in order;
the first error aborts it. -/
def executeActions (funcs : FuncMap (Rendered → Rendered)) (data : StructValue) :
    List Action → Except Error String
  | [] => .ok ""
  | act :: acts =>
    match executeAction funcs data act with
    | .error err => .error err
    | .ok s =>
      match executeActions funcs data acts with
      | .error err => .error err
      | .ok rest => .ok (s ++ rest)

/-- Go `(*Template).Execute`, for the templates whose actions all stand in a
text node: the text the parsed program writes against `data`, or the error of
the execution. A template whose literal text leaves the text node (it holds
`<`) is escaped by other contexts of `html/template`; the result is `none`
there, the execution is not described. -/
def Execute (t : Template specEngine.Fn specEngine.Tree) (data : StructValue) :
    Option (Except Error String) :=
  match t.tree with
  | none => some (.error "template: incomplete or empty template")
  | some acts =>
    if acts.all staysInText then some (executeActions t.funcs data acts) else none

/-! ## Options and the compiler context -/

/-- The effective options of a non-empty list are its first element. -/
theorem getOptions_cons {D Fn : Type} (o : Options D Fn) (rest : List (Options D Fn)) :
    getOptions (o :: rest) = o := by
  simp [getOptions]

/-- The context of a non-empty options list is the context of its first
element alone. -/
theorem newContext_cons {D Fn : Type} (dir : D) (o : Options D Fn)
    (rest : List (Options D Fn)) : newContext dir (o :: rest) = newContext dir [o] := by
  simp [newContext, getOptions_cons]

/-- The resolver of the context: `Options.Dir` when set, the given one
otherwise. -/
theorem newContext_dir {D Fn : Type} (dir : D) (options : List (Options D Fn)) :
    (newContext dir options).dir = (getOptions options).Dir.getD dir := by
  cases h : (getOptions options).Dir <;> simp [newContext, NewContext, h]

/-- C9: `getOptions` returns the zero `Options` for the empty list and the
first element of every other list, and each of the four entry points gives
with the options `o :: rest` the result it gives with `o` alone. -/
theorem getOptions_first_only (c : Compiler) (e : Engine) :
    getOptions ([] : List (Options c.Dir e.Fn)) =
        { PrettyPrint := false, Dir := none, ExcludedImports := [], Funcs := fun _ => none } ∧
      (∀ (o : Options c.Dir e.Fn) (rest : List (Options c.Dir e.Fn)),
        getOptions (o :: rest) = o) ∧
      (∀ (s : String) (o : Options c.Dir e.Fn) (rest : List (Options c.Dir e.Fn)),
        CompileFile c e s (o :: rest) = CompileFile c e s [o] ∧
        CompileString c e s (o :: rest) = CompileString c e s [o] ∧
        ParseFile c e s (o :: rest) = ParseFile c e s [o] ∧
        ParseString c e s (o :: rest) = ParseString c e s [o]) := by
  refine ⟨rfl, fun o rest => getOptions_cons o rest, fun s o rest => ?_⟩
  simp [CompileFile, CompileString, ParseFile, ParseString, newContext_cons _ o rest,
    getOptions_cons]

/-- C6: the indentation string of the context `newContext` builds is two
spaces exactly when the effective options have `PrettyPrint` set, and empty
otherwise, in particular when no options are given. -/
theorem newContext_indentString {D Fn : Type} (dir : D) (options : List (Options D Fn)) :
    (newContext dir options).indentString
        = (if (getOptions options).PrettyPrint = true then "  " else "") ∧
      ((newContext dir options).indentString = "  " ↔ (getOptions options).PrettyPrint = true) ∧
      ((newContext dir options).indentString = "" ↔ (getOptions options).PrettyPrint = false) ∧
      (newContext dir ([] : List (Options D Fn))).indentString = "" := by
  refine ⟨rfl, ?_, ?_, rfl⟩
  · cases h : (getOptions options).PrettyPrint <;> simp [newContext, NewContext, h]
  · cases h : (getOptions options).PrettyPrint <;> simp [newContext, NewContext, h]

/-- C7: the excluded imports of the context `newContext` builds are the
`ExcludedImports` of the effective options, unchanged, and none when no
options are given; the four entry points all run the compiler on such a
context. With `ExcludedImports = ["sub/style.css"]` the context excludes
exactly that path. -/
theorem newContext_excludedImports (c : Compiler) (e : Engine) (dir : c.Dir)
    (name : String) (options : List (Options c.Dir e.Fn)) :
    (newContext dir options).excludedImports = (getOptions options).ExcludedImports ∧
      (newContext dir ([] : List (Options c.Dir e.Fn))).excludedImports = [] ∧
      (newContext dir [({ ExcludedImports := ["sub/style.css"] } : Options c.Dir e.Fn)]).excludedImports
        = ["sub/style.css"] ∧
      ParseFile c e name options
        = c.CompileFile
            { dir := (newContext (c.FsDir ".") options).dir
              indentString := (newContext (c.FsDir ".") options).indentString
              excludedImports := (getOptions options).ExcludedImports } name ∧
      ParseString c e name options
        = c.CompileFile
            { dir := (newContext (c.StringInputDir name) options).dir
              indentString := (newContext (c.StringInputDir name) options).indentString
              excludedImports := (getOptions options).ExcludedImports } "" ∧
      CompileFile c e name options
        = (match c.CompileFile
            { dir := (newContext (c.FsDir ".") options).dir
              indentString := (newContext (c.FsDir ".") options).indentString
              excludedImports := (getOptions options).ExcludedImports } name with
          | .error err => .error err
          | .ok tplstring => compileTemplate c e (getOptions options) name tplstring) ∧
      CompileString c e name options
        = (match c.CompileFile
            { dir := (newContext (c.StringInputDir name) options).dir
              indentString := (newContext (c.StringInputDir name) options).indentString
              excludedImports := (getOptions options).ExcludedImports } "" with
          | .error err => .error err
          | .ok tplstring => compileTemplate c e (getOptions options) "" tplstring) :=
  ⟨rfl, rfl, rfl, rfl, rfl, rfl, rfl⟩

/-- C8: for `CompileFile` and `ParseFile` the context resolves paths through
`Options.Dir` when the effective options set it, and through
`compiler.FsDir(".")` when it is nil or when no options are given. -/
theorem newContext_dir_for_files (c : Compiler) (e : Engine) (filename : String)
    (options : List (Options c.Dir e.Fn)) :
    (newContext (c.FsDir ".") options).dir = (getOptions options).Dir.getD (c.FsDir ".") ∧
      (newContext (c.FsDir ".") ([] : List (Options c.Dir e.Fn))).dir = c.FsDir "." ∧
      (∀ (o : Options c.Dir e.Fn) (d : c.Dir) (rest : List (Options c.Dir e.Fn)),
        (newContext (c.FsDir ".") ({ o with Dir := some d } :: rest)).dir = d ∧
        (newContext (c.FsDir ".") ({ o with Dir := none } :: rest)).dir = c.FsDir ".") ∧
      ParseFile c e filename options
        = c.CompileFile
            { dir := (getOptions options).Dir.getD (c.FsDir ".")
              indentString := (newContext (c.FsDir ".") options).indentString
              excludedImports := (newContext (c.FsDir ".") options).excludedImports } filename ∧
      CompileFile c e filename options
        = (match c.CompileFile
            { dir := (getOptions options).Dir.getD (c.FsDir ".")
              indentString := (newContext (c.FsDir ".") options).indentString
              excludedImports := (newContext (c.FsDir ".") options).excludedImports } filename with
          | .error err => .error err
          | .ok tplstring => compileTemplate c e (getOptions options) filename tplstring) := by
  refine ⟨newContext_dir _ _, rfl, fun o d rest => ?_, ?_, ?_⟩
  · simp [newContext_dir, getOptions_cons]
  · rw [← newContext_dir]
    rfl
  · rw [← newContext_dir]
    rfl

/-! ## Compiling and parsing -/

/-- C2: when the compiler context reports an error, `CompileFile` and
`CompileString` return no template and exactly that error, and they do so
whatever the template parser is: the parser is not consulted, so nothing
partial is built. -/
theorem compile_error_aborts (c : Compiler) (e : Engine) (name : String)
    (options : List (Options c.Dir e.Fn)) (err : Error) :
    (c.CompileFile (newContext (c.FsDir ".") options) name = .error err →
      ∀ parse : FuncMap e.Fn → String → String → Except Error e.Tree,
        CompileFile c { e with parseText := parse } name options = .error err) ∧
    (c.CompileFile (newContext (c.StringInputDir name) options) "" = .error err →
      ∀ parse : FuncMap e.Fn → String → String → Except Error e.Tree,
        CompileString c { e with parseText := parse } name options = .error err) := by
  constructor
  · intro h parse
    simp only [CompileFile]
    rw [h]
  · intro h parse
    simp only [CompileString]
    rw [h]

/-- C2 at a concrete input: a file that does not exist and a text line whose
interpolation is not closed both abort the compile with the error of the
compiler, for every template parser. -/
theorem compile_error_aborts_witness :
    (∀ parse : FuncMap specEngine.Fn → String → String → Except Error specEngine.Tree,
      CompileFile (specCompiler noFiles) { specEngine with parseText := parse } "index.pug" []
        = .error "ResolutionError: not found: index.pug") ∧
    (∀ parse : FuncMap specEngine.Fn → String → String → Except Error specEngine.Tree,
      CompileString (specCompiler noFiles) { specEngine with parseText := parse } "| #\x7bKey" []
        = .error "ParseError: unclosed interpolation") :=
  ⟨(compile_error_aborts (specCompiler noFiles) specEngine "index.pug" [] _).1 rfl,
   (compile_error_aborts (specCompiler noFiles) specEngine "| #\x7bKey" [] _).2 rfl⟩

/-- C4: in the template `compileTemplate` returns, every name of
`runtime.FuncMap` is bound to the built-in, also when `options.Funcs` binds
the same name, and every other name is bound as in `options.Funcs`. -/
theorem compileTemplate_funcs (c : Compiler) (e : Engine) (options : Options c.Dir e.Fn)
    (name tplstring : String) (t : Template e.Fn e.Tree)
    (h : compileTemplate c e options name tplstring = .ok t) :
    (∀ (k : String) (f : e.Fn), e.runtimeFuncMap k = some f → t.funcs k = some f) ∧
      (∀ k : String, e.runtimeFuncMap k = none → t.funcs k = options.Funcs k) := by
  simp only [compileTemplate, Template.Parse, Template.Funcs, Template.New] at h
  split at h
  · cases h
  · cases h
    constructor
    · intro k f hk
      simp [hk]
    · intro k hk
      simp only [hk]
      cases options.Funcs k <;> rfl

/-- C5: `CompileString` fails with the error of `ParseString` when that one
fails, and otherwise is `compileTemplate` of the effective options, the empty
name and the source `ParseString` returns; the same for `CompileFile` and
`ParseFile`, with the file name as the template name. -/
theorem compile_refines_parse (c : Compiler) (e : Engine) (name : String)
    (options : List (Options c.Dir e.Fn)) :
    CompileString c e name options
        = (match ParseString c e name options with
          | .error err => .error err
          | .ok s => compileTemplate c e (getOptions options) "" s) ∧
      CompileFile c e name options
        = (match ParseFile c e name options with
          | .error err => .error err
          | .ok s => compileTemplate c e (getOptions options) name s) := by
  constructor
  · simp only [CompileString, ParseString]
  · simp only [CompileFile, ParseFile]

/-- C10: two option values that differ only in `Funcs` give the same result
of `ParseString` and of `ParseFile`, source or error. -/
theorem parse_ignores_funcs (c : Compiler) (e : Engine) (name : String)
    (o₁ o₂ : Options c.Dir e.Fn) (rest₁ rest₂ : List (Options c.Dir e.Fn))
    (hp : o₁.PrettyPrint = o₂.PrettyPrint) (hd : o₁.Dir = o₂.Dir)
    (hx : o₁.ExcludedImports = o₂.ExcludedImports) :
    ParseString c e name (o₁ :: rest₁) = ParseString c e name (o₂ :: rest₂) ∧
      ParseFile c e name (o₁ :: rest₁) = ParseFile c e name (o₂ :: rest₂) := by
  simp [ParseString, ParseFile, newContext, getOptions_cons, hp, hd, hx]

/-- C4 at a concrete input: options that bind the name of the raw built-in and
a name of their own; the template has the built-in under the first name and
the function of the caller under the second. -/
theorem compileTemplate_funcs_witness :
    ∃ t : Template specEngine.Fn specEngine.Tree,
      compileTemplate (specCompiler noFiles) specEngine shadowingOptions "" "a" = .ok t ∧
      (∀ (k : String) (f : specEngine.Fn),
        specEngine.runtimeFuncMap k = some f → t.funcs k = some f) ∧
      (∀ k : String, specEngine.runtimeFuncMap k = none → t.funcs k = shadowingOptions.Funcs k) :=
  ⟨_, rfl, compileTemplate_funcs (specCompiler noFiles) specEngine shadowingOptions "" "a" _ rfl⟩

/-- C10 at a concrete input: the zero options and options with custom
functions give the same source for a text line. -/
theorem parse_ignores_funcs_witness :
    ParseString (specCompiler noFiles) specEngine "| a" [{}]
        = ParseString (specCompiler noFiles) specEngine "| a" [shadowingOptions] ∧
      ParseFile (specCompiler noFiles) specEngine "| a" [{}]
        = ParseFile (specCompiler noFiles) specEngine "| a" [shadowingOptions] :=
  parse_ignores_funcs (specCompiler noFiles) specEngine "| a" {} shadowingOptions [] []
    rfl rfl rfl

/-! ## Interpolation in a text line -/

/-- The replacement of a rune holds none of the runes of the table but `&`. -/
theorem replaceRune_no_meta (r x : Char) (hx : x ∈ replaceRune r) :
    x ≠ '<' ∧ x ≠ '>' ∧ x ≠ '\x22' ∧ x ≠ '\x27' ∧ x ≠ '+' ∧ x ≠ '\x00' := by
  unfold replaceRune htmlReplacementTable at hx
  split_ifs at hx with h0 h1 h2 h3 h4 h5 h6
  all_goals simp at hx
  · subst hx
    decide
  · rcases hx with rfl | rfl | rfl | rfl | rfl <;> decide
  · rcases hx with rfl | rfl | rfl | rfl | rfl <;> decide
  · rcases hx with rfl | rfl | rfl | rfl | rfl <;> decide
  · rcases hx with rfl | rfl | rfl | rfl | rfl <;> decide
  · rcases hx with rfl | rfl | rfl | rfl <;> decide
  · rcases hx with rfl | rfl | rfl | rfl <;> decide
  · subst hx
    exact ⟨h5, h6, h1, h3, h4, h0⟩

/-- A rune other than `+` and NUL is replaced as the claim words it. -/
theorem replaceRune_eq_claimed (r : Char) (hp : r ≠ '+') (hz : r ≠ '\x00') :
    replaceRune r = claimedEscapeChar r := by
  unfold replaceRune htmlReplacementTable claimedEscapeChar
  split_ifs <;> simp_all

/-- The replacement of the runes of a list that holds neither `+` nor NUL is
the escaping the claim words. -/
theorem flatMap_replaceRune_eq_claimed (l : List Char)
    (h : ∀ x ∈ l, x ≠ '+' ∧ x ≠ '\x00') :
    l.flatMap replaceRune = l.flatMap claimedEscapeChar := by
  induction l with
  | nil => rfl
  | cons r rs ih =>
    have hr := h r (List.mem_cons_self r rs)
    have hrs : ∀ x ∈ rs, x ≠ '+' ∧ x ≠ '\x00' := fun x hx => h x (List.mem_cons_of_mem r hx)
    simp only [List.flatMap_cons, ih hrs, replaceRune_eq_claimed r hr.1 hr.2]

/-- The template `CompileString` builds from the text line with one escaped
and one raw interpolation of `Key`. -/
theorem compileString_interpolation (fsys : String → String → Option String) :
    CompileString (specCompiler fsys) specEngine "| #\x7bKey\x7d !\x7bKey\x7d" []
      = .ok { name := ""
              funcs := (((Template.New "" : Template specEngine.Fn specEngine.Tree).Funcs
                (fun _ => none)).Funcs specEngine.runtimeFuncMap).funcs
              tree := some [Action.field none "Key", Action.text " ",
                Action.field (some unescapeName) "Key"] } := by
  rfl

/-- The render of that template against a struct whose field `Key` is `v`: the
replaced form of `v`, a space, and `v` itself. -/
theorem execute_interpolation (data : StructValue) (v : String)
    (h : data.fields.lookup "Key" = some v) :
    Execute
        { name := ""
          funcs := (((Template.New "" : Template specEngine.Fn specEngine.Tree).Funcs
            (fun _ => none)).Funcs specEngine.runtimeFuncMap).funcs
          tree := some [Action.field none "Key", Action.text " ",
            Action.field (some unescapeName) "Key"] } data
      = some (.ok (htmlReplacer v ++ " " ++ v)) := by
  simp [Execute, executeActions, executeAction, staysInText, htmlEscaper, h, Template.Funcs,
    Template.New, specEngine, unescapeName]
  exact (String.append_assoc _ _ _).symm

/-- C3, as amended: for every string value `v` of the field `Key` of the data,
`CompileString` builds a template from the text line with `#` and `!`
interpolations of `Key`, and that template renders `v` as the escaper of
`html/template` writes it (`<`, `>`, `&`, the two quotes and `+` replaced by
entities, NUL by U+FFFD), a space, and `v` unchanged. The escaped form holds
none of `<`, `>`, the two quotes, `+` and NUL, and for a `v` without `+` and
NUL it is the escaped form the claim words. -/
theorem interpolation_render (fsys : String → String → Option String)
    (data : StructValue) (v : String) (h : data.fields.lookup "Key" = some v) :
    ∃ t : Template specEngine.Fn specEngine.Tree,
      CompileString (specCompiler fsys) specEngine "| #\x7bKey\x7d !\x7bKey\x7d" [] = .ok t ∧
      Execute t data = some (.ok (htmlReplacer v ++ " " ++ v)) ∧
      (∀ x ∈ (htmlReplacer v).data,
        x ≠ '<' ∧ x ≠ '>' ∧ x ≠ '\x22' ∧ x ≠ '\x27' ∧ x ≠ '+' ∧ x ≠ '\x00') ∧
      ((∀ x ∈ v.data, x ≠ '+' ∧ x ≠ '\x00') → htmlReplacer v = claimedEscape v) := by
  refine ⟨_, compileString_interpolation fsys, execute_interpolation data v h, ?_, ?_⟩
  · intro x hx
    simp only [htmlReplacer, List.mem_flatMap] at hx
    obtain ⟨r, _, hr⟩ := hx
    exact replaceRune_no_meta r x hr
  · intro hv
    simp only [htmlReplacer, claimedEscape, flatMap_replaceRune_eq_claimed v.data hv]

/-- C3 at a concrete input: the value `<hr />` renders as its escaped form, a
space, and the value itself. -/
theorem interpolation_render_witness :
    ∃ t : Template specEngine.Fn specEngine.Tree,
      CompileString (specCompiler noFiles) specEngine "| #\x7bKey\x7d !\x7bKey\x7d" [] = .ok t ∧
      Execute t { fields := [("Key", "<hr />")] } = some (.ok "&lt;hr /&gt; <hr />") := by
  obtain ⟨t, ht, hx, _⟩ := interpolation_render noFiles
    { fields := [("Key", "<hr />")] } "<hr />" rfl
  exact ⟨t, ht, hx.trans (by rfl)⟩

/-- C3 as stated fails at the value `a+b`: the template renders
`a&#43;b a+b`, while the escaped form the claim words keeps `+`, so that the
claimed render is `a+b a+b`. -/
theorem interpolation_plus_replaced :
    claimedEscape "a+b" = "a+b" ∧
    ∃ t : Template specEngine.Fn specEngine.Tree,
      CompileString (specCompiler noFiles) specEngine "| #\x7bKey\x7d !\x7bKey\x7d" [] = .ok t ∧
      Execute t { fields := [("Key", "a+b")] } = some (.ok "a&#43;b a+b") ∧
      Execute t { fields := [("Key", "a+b")] }
        ≠ some (.ok (claimedEscape "a+b" ++ " " ++ "a+b")) := by
  refine ⟨rfl, _, compileString_interpolation noFiles, ?_, ?_⟩
  · exact (execute_interpolation { fields := [("Key", "a+b")] } "a+b" rfl).trans (by rfl)
  · rw [execute_interpolation { fields := [("Key", "a+b")] } "a+b" rfl]
    have h1 : htmlReplacer "a+b" ++ " " ++ "a+b" = "a&#43;b a+b" := by rfl
    have h2 : claimedEscape "a+b" ++ " " ++ "a+b" = "a+b a+b" := by rfl
    rw [h1, h2]
    simp

/-! ## String input and `Options.Dir` -/

/-- C1: with `Options.Dir` set, `newContext` replaces the resolver of the
string input by `Options.Dir`, so `ParseString` and `CompileString` give the
same result for every two inputs; on a file system without files the text line
`| hello` compiles to `hello` without options, fails as not found with
`Dir = FsDir(".")`, and compiles to `bye` when `Dir` holds another text. -/
theorem string_input_dropped_when_dir_set :
    (∀ (c : Compiler) (e : Engine) (input : String),
      (newContext (c.StringInputDir input) ([] : List (Options c.Dir e.Fn))).dir
        = c.StringInputDir input) ∧
    (∀ (c : Compiler) (e : Engine) (input : String) (o : Options c.Dir e.Fn) (d : c.Dir)
        (rest : List (Options c.Dir e.Fn)),
      (newContext (c.StringInputDir input) ({ o with Dir := some d } :: rest)).dir = d) ∧
    (∀ (c : Compiler) (e : Engine) (input other : String) (o : Options c.Dir e.Fn) (d : c.Dir)
        (rest : List (Options c.Dir e.Fn)),
      ParseString c e input ({ o with Dir := some d } :: rest)
        = ParseString c e other ({ o with Dir := some d } :: rest) ∧
      CompileString c e input ({ o with Dir := some d } :: rest)
        = CompileString c e other ({ o with Dir := some d } :: rest)) ∧
    ParseString (specCompiler noFiles) specEngine "| hello" [] = .ok "hello" ∧
    ParseString (specCompiler noFiles) specEngine "| hello"
        [{ Dir := some ((specCompiler noFiles).FsDir ".") }]
      = .error "ResolutionError: not found: " ∧
    CompileString (specCompiler noFiles) specEngine "| hello"
        [{ Dir := some ((specCompiler noFiles).FsDir ".") }]
      = .error "ResolutionError: not found: " ∧
    ParseString (specCompiler noFiles) specEngine "| hello"
        [{ Dir := some ((specCompiler noFiles).StringInputDir "| bye") }]
      = .ok "bye" := by
  refine ⟨fun c e input => rfl, fun c e input o d rest => ?_, fun c e input other o d rest => ?_,
    rfl, rfl, rfl, rfl⟩
  · simp [newContext_dir, getOptions_cons]
  · simp [ParseString, CompileString, newContext, getOptions_cons]

end Pug
